import Mathlib

/-!
Shallow embedding of the asynchronous job subsystem of the
browser-agent-server repository.

Server side (`src/api.py`): the module-level dict `running_tasks` maps a
task id to a plain dict holding the job record.  The submission endpoints
`start_agent_run` / `start_deep_search` allocate an id from the current
size of the dict, insert the placeholder `{"status": "running"}` and
return a `{"status": "started", "message": ...}` response whose message
embeds the id.  The background executors `run_agent_background` /
`run_deep_search_background` overwrite the placeholder with a terminal
record.  The status endpoints `get_agent_status` / `get_deep_search_status`
read the record; the agent one additionally stringifies structured
sub-fields in place (the dict stored in the registry is aliased).

Client side (`src/api_client.py`): `BrowserUseClient.run_agent` extracts
the id from the message by splitting on the literal "ID: ", and
`poll_agent_status` loops with a fixed sleep interval, a wall-clock
timeout and a bounded transient-retry budget.

Python dicts are embedded as association lists over `String` keys that
keep insertion order (assignment replaces the first matching key in
place, otherwise appends), JSON-able Python values as `JVal`, and
exceptions as `Except`.  The long-running operations
`webui_core.run_browser_agent` / `webui_core.run_deep_search` are not part
of the repository sources; following the spec they are opaque operations
that either return a structured tuple or raise, so they enter the model
as an `Except` parameter.  Wall-clock time advances only at `time.sleep`,
by the sleep interval.
-/

/-- JSON-able Python value as stored in a job record. -/
inductive JVal where
  | str (s : String)
  | null
  | list (xs : List JVal)

mutual

/-- Decidable equality of `JVal` (mutual with list equality). -/
def JVal.deq : (a b : JVal) → Decidable (a = b)
  | .str a, .str b =>
      match String.decEq a b with
      | isTrue h => isTrue (by rw [h])
      | isFalse h => isFalse (fun hh => h (by injection hh))
  | .str _, .null => isFalse (fun h => JVal.noConfusion h)
  | .str _, .list _ => isFalse (fun h => JVal.noConfusion h)
  | .null, .str _ => isFalse (fun h => JVal.noConfusion h)
  | .null, .null => isTrue rfl
  | .null, .list _ => isFalse (fun h => JVal.noConfusion h)
  | .list _, .str _ => isFalse (fun h => JVal.noConfusion h)
  | .list _, .null => isFalse (fun h => JVal.noConfusion h)
  | .list xs, .list ys =>
      match JVal.deqList xs ys with
      | isTrue h => isTrue (by rw [h])
      | isFalse h => isFalse (fun hh => h (by injection hh))

/-- Decidable equality of lists of `JVal`. -/
def JVal.deqList : (xs ys : List JVal) → Decidable (xs = ys)
  | [], [] => isTrue rfl
  | [], _ :: _ => isFalse (fun h => List.noConfusion h)
  | _ :: _, [] => isFalse (fun h => List.noConfusion h)
  | x :: xs, y :: ys =>
      match JVal.deq x y, JVal.deqList xs ys with
      | isTrue h1, isTrue h2 => isTrue (by rw [h1, h2])
      | isFalse h1, _ => isFalse (fun h => by injection h with ha hb; exact h1 ha)
      | isTrue _, isFalse h2 => isFalse (fun h => by injection h with ha hb; exact h2 hb)

end

instance : DecidableEq JVal := JVal.deq

/-- Python truthiness of a `JVal` (used by `task_data["errors"] if ... else ""`). -/
def JVal.truthy : JVal → Bool
  | .str s => decide (s ≠ "")
  | .null => false
  | .list xs => decide (xs ≠ [])

/-- `isinstance(v, str)`. -/
def JVal.isStr : JVal → Bool
  | .str _ => true
  | _ => false

mutual

/-- `json.dumps(v, cls=CustomJSONEncoder)` (src/api.py:36-41): a total,
deterministic serialization of a `JVal` into one string. -/
def JVal.dumps : JVal → String
  | .str s => "\"" ++ s ++ "\""
  | .null => "null"
  | .list xs => "[" ++ JVal.dumpsList xs ++ "]"

/-- Comma-separated serialization of a list of values. -/
def JVal.dumpsList : List JVal → String
  | [] => ""
  | [x] => JVal.dumps x
  | x :: y :: xs => JVal.dumps x ++ ", " ++ JVal.dumpsList (y :: xs)

end

/-- A Python dict-with-string-keys as an insertion-ordered association list. -/
def JDict : Type := List (String × JVal)

instance : DecidableEq JDict := by
  unfold JDict
  infer_instance

/-- `d[k]` / `d.get(k)`: first binding of key `k`. -/
def alGet {α : Type} : List (String × α) → String → Option α
  | [], _ => none
  | (k', v) :: t, k => if k' = k then some v else alGet t k

/-- `d[k] = v`: replace the first binding of `k` in place, else append
(Python dict assignment keeps the position of an existing key). -/
def alSet {α : Type} : List (String × α) → String → α → List (String × α)
  | [], k, v => [(k, v)]
  | (k', v') :: t, k, v => if k' = k then (k, v) :: t else (k', v') :: alSet t k v

/-- The keys of a dict, in insertion order. -/
def alKeys {α : Type} (l : List (String × α)) : List String := l.map Prod.fst

/-- The module-level registry `running_tasks` (src/api.py:186). -/
def Registry : Type := List (String × JDict)

instance : DecidableEq Registry := by
  unfold Registry
  infer_instance

/-- Decimal digits of `n`, little-endian, by repeated division (fuel-indexed). -/
def digitsLE : Nat → Nat → List Nat
  | 0, _ => []
  | fuel + 1, n => if n = 0 then [] else n % 10 :: digitsLE fuel (n / 10)

/-- Decimal digits of `n`, little-endian (`fuel = n` is always enough). -/
def natDigits (n : Nat) : List Nat := digitsLE n n

/-- Value of a little-endian digit list (left inverse of `natDigits`). -/
def fromDigitsLE : List Nat → Nat
  | [] => 0
  | d :: ds => d + 10 * fromDigitsLE ds

/-- Python `str(n)` for a natural number: its decimal numeral. -/
def natStr (n : Nat) : String :=
  String.mk (if n = 0 then ['0'] else (natDigits n).reverse.map Nat.digitChar)

/-- The placeholder record `{"status": "running"}` inserted at submission
(src/api.py:216, 304). -/
def runningRecord : JDict := [("status", JVal.str "running")]

/-- `f"task_{len(running_tasks) + 1}"` (src/api.py:205). -/
def agentTaskId (st : Registry) : String := "task_" ++ natStr (st.length + 1)

/-- `f"search_{len(running_tasks) + 1}"` (src/api.py:292). -/
def searchTaskId (st : Registry) : String := "search_" ++ natStr (st.length + 1)

/-- `POST /agent/run` (src/api.py:199-218): allocate the id, schedule the
background task, insert the placeholder record, and return the
`{"status": "started", "message": ...}` response.  Result: registry after
the endpoint returns, paired with the response body. -/
def start_agent_run (st : Registry) : Registry × JDict :=
  let task_id := agentTaskId st
  (alSet st task_id runningRecord,
   [("status", JVal.str "started"),
    ("message", JVal.str ("Agent run started with ID: " ++ task_id))])

/-- `POST /deep-search/run` (src/api.py:286-306). -/
def start_deep_search (st : Registry) : Registry × JDict :=
  let task_id := searchTaskId st
  (alSet st task_id runningRecord,
   [("status", JVal.str "started"),
    ("message", JVal.str ("Deep search started with ID: " ++ task_id))])

/-- The tuple unpacked from `webui_core.run_browser_agent` (src/api.py:156);
the last three of the ten returned components are discarded by the caller.
Modelled from the spec: `run_browser_agent` itself is not in the repository
sources and is an opaque long-running operation. -/
structure AgentSuccess where
  final_result : JVal
  errors : JVal
  model_actions : JVal
  model_thoughts : JVal
  latest_video : JVal
  trace_file : JVal
  history_file : JVal
deriving DecidableEq

/-- `run_agent_task` (src/api.py:121-183): on success, the record copies
the operation's tuple fields and stamps `status = "completed"`; any
exception (from the operation or from the result unpacking) is caught and
becomes a record with `status = "error"` and the message prefixed
`"Error: "`. -/
def run_agent_task (task_id : String) (op : Except String AgentSuccess) : JDict :=
  match op with
  | .ok r =>
      [("task_id", JVal.str task_id), ("final_result", r.final_result),
       ("errors", r.errors), ("model_actions", r.model_actions),
       ("model_thoughts", r.model_thoughts), ("latest_video", r.latest_video),
       ("trace_file", r.trace_file), ("history_file", r.history_file),
       ("status", JVal.str "completed")]
  | .error e =>
      [("task_id", JVal.str task_id), ("final_result", JVal.str ""),
       ("errors", JVal.str ("Error: " ++ e)), ("model_actions", JVal.str ""),
       ("model_thoughts", JVal.str ""), ("latest_video", JVal.null),
       ("trace_file", JVal.null), ("history_file", JVal.null),
       ("status", JVal.str "error")]

/-- `run_agent_background` (src/api.py:220-241): stores the record produced
by `run_agent_task`; its own `except` converts any exception that escapes
that call into a record with `"Unhandled error: "`.  The outer `Except`
layer of `outcome` models an exception escaping `run_agent_task` itself. -/
def run_agent_background (task_id : String)
    (outcome : Except String (Except String AgentSuccess)) (st : Registry) : Registry :=
  match outcome with
  | .ok op => alSet st task_id (run_agent_task task_id op)
  | .error e =>
      alSet st task_id
        [("task_id", JVal.str task_id), ("final_result", JVal.str ""),
         ("errors", JVal.str ("Unhandled error: " ++ e)), ("model_actions", JVal.str ""),
         ("model_thoughts", JVal.str ""), ("latest_video", JVal.null),
         ("trace_file", JVal.null), ("history_file", JVal.null),
         ("status", JVal.str "error")]

/-- The pair unpacked from `webui_core.run_deep_search` (src/api.py:329);
the last three of the five returned components are discarded.  Modelled
from the spec: `run_deep_search` is an opaque long-running operation. -/
structure DeepSuccess where
  markdown_content : JVal
  file_path : JVal
deriving DecidableEq

/-- `run_deep_search_background` (src/api.py:308-347): success stores the
markdown and file path with `status = "completed"`; any exception is caught
and stored with the message (prefixed `"Error: "`) in `markdown_content`
and `status = "error"`. -/
def run_deep_search_background (task_id : String)
    (outcome : Except String DeepSuccess) (st : Registry) : Registry :=
  match outcome with
  | .ok r =>
      alSet st task_id
        [("task_id", JVal.str task_id), ("markdown_content", r.markdown_content),
         ("file_path", r.file_path), ("status", JVal.str "completed")]
  | .error e =>
      alSet st task_id
        [("task_id", JVal.str task_id),
         ("markdown_content", JVal.str ("Error: " ++ e)),
         ("file_path", JVal.null), ("status", JVal.str "error")]

/-- An `HTTPException` raised by a status endpoint. -/
structure HttpErr where
  code : Nat
  detail : String
deriving DecidableEq

deriving instance DecidableEq for Except

/-- The guard `len(task_data) == 1 and "status" in task_data and
task_data["status"] == "running"` (src/api.py:253, 359). -/
def isInitializing (d : JDict) : Bool :=
  d.length == 1 && (alGet d "status" == some (JVal.str "running"))

/-- One in-place conversion step of `get_agent_status` (src/api.py:257-261):
if key `k` is present and not a string, replace it by its JSON dump. -/
def coerceKey (d : JDict) (k : String) : JDict :=
  match alGet d k with
  | some v => if v.isStr then d else alSet d k (JVal.str v.dumps)
  | none => d

/-- The `errors` conversion of `get_agent_status` (src/api.py:264-265):
a non-string value becomes its JSON dump if truthy, else `""`. -/
def coerceErrors (d : JDict) : JDict :=
  match alGet d "errors" with
  | some v =>
      if v.isStr then d
      else alSet d "errors" (if v.truthy then JVal.str v.dumps else JVal.str "")
  | none => d

/-- All in-place conversions `get_agent_status` applies to the stored
record, in source order: `model_actions`, `model_thoughts`, `errors`. -/
def coerceTaskData (d : JDict) : JDict :=
  coerceErrors (coerceKey (coerceKey d "model_actions") "model_thoughts")

/-- `GET /agent/status/{task_id}` (src/api.py:243-272).  Unknown id raises
404; the bare placeholder returns the initializing shape; otherwise the
structured sub-fields are stringified in place — `task_data` aliases the
dict stored in `running_tasks`, so the conversion is visible in the
registry — and the (mutated) record is returned.  Result: response paired
with the registry after the call. -/
def get_agent_status (st : Registry) (task_id : String) :
    Except HttpErr JDict × Registry :=
  match alGet st task_id with
  | none => (.error ⟨404, "Task " ++ task_id ++ " not found"⟩, st)
  | some task_data =>
      if isInitializing task_data then
        (.ok [("status", JVal.str "running"),
              ("message", JVal.str ("Task " ++ task_id ++ " is still initializing"))], st)
      else
        let d := coerceTaskData task_data
        (.ok d, alSet st task_id d)

/-- `GET /deep-search/status/{task_id}` (src/api.py:349-367): same lookup
and initializing guard, but the record is returned without conversion. -/
def get_deep_search_status (st : Registry) (task_id : String) :
    Except HttpErr JDict × Registry :=
  match alGet st task_id with
  | none => (.error ⟨404, "Task " ++ task_id ++ " not found"⟩, st)
  | some task_data =>
      if isInitializing task_data then
        (.ok [("status", JVal.str "running"),
              ("message", JVal.str ("Task " ++ task_id ++ " is still initializing"))], st)
      else
        (.ok task_data, st)

/-- `result.get("status") == "completed" or result.get("status") == "error"`
(src/api_client.py:132): the record is terminal. -/
def isTerminalStatus (d : JDict) : Bool :=
  (alGet d "status" == some (JVal.str "completed")) ||
  (alGet d "status" == some (JVal.str "error"))

/-- A field is populated: present with a truthy (non-empty) value. -/
def populatedB (d : JDict) (k : String) : Bool :=
  match alGet d k with
  | some v => v.truthy
  | none => false

/-- Does `pat` occur at the head of `l`?  (Matching a separator at the
current position, as Python `str.split` does left to right.) -/
def leadsWith : List Char → List Char → Bool
  | [], _ => true
  | _ :: _, [] => false
  | x :: xs, y :: ys => x == y && leadsWith xs ys

/-- Worker for Python `s.split(sep)` with non-empty `sep = s0 :: stail`:
scan left to right, cutting at each non-overlapping occurrence of the
separator.  `acc` is the current chunk, reversed.  The fuel only bounds
the recursion; since every step consumes at least one character, any fuel
of at least the input length gives the exact Python semantics. -/
def pySplitAux (s0 : Char) (stail : List Char) :
    Nat → List Char → List Char → List (List Char)
  | _, acc, [] => [acc.reverse]
  | 0, acc, _ :: _ => [acc.reverse]
  | fuel + 1, acc, c :: cs =>
      if c == s0 && leadsWith stail cs then
        acc.reverse :: pySplitAux s0 stail fuel [] (cs.drop stail.length)
      else
        pySplitAux s0 stail fuel (c :: acc) cs

/-- Python `s.split(sep)` for a non-empty separator
(src/api_client.py:83 uses `result["message"].split("ID: ")`). -/
def pySplit (s sep : String) : List String :=
  match sep.data with
  | [] => [s]
  | s0 :: stail => (pySplitAux s0 stail s.data.length [] s.data).map String.mk

/-- The client's id extraction (src/api_client.py:83):
`result["message"].split("ID: ")[1]`, as an `Option` (a missing message
key or a too-short split is an extraction failure). -/
def clientExtractId (resp : JDict) : Option String :=
  match alGet resp "message" with
  | some (JVal.str m) => (pySplit m "ID: ").get? 1
  | _ => none

/-- One observed attempt of the polling loop: either an HTTP response
(`body = none` models a 200/4xx/5xx body that is not valid JSON) or a
`requests.RequestException` (transport-level failure). -/
inductive HttpResult where
  | success (code : Nat) (body : Option JDict)
  | netErr (msg : String)

/-- Worker for `BrowserUseClient.poll_agent_status`
(src/api_client.py:93-151).  `responses i` is the outcome of the i-th
GET; `elapsed` is wall-clock time since `start_time`, advanced only by
`time.sleep(interval)`; `retries` is the transient-retry counter, reset
to 0 on every 200 response; `log` collects the printed lines.  The fuel
only bounds the recursion; `timeout + 1` units are enough whenever
`0 < interval`, since every continuing path sleeps.  Returns the parsed
terminal record, or `none` (the Python `return None`), with the log. -/
def poll_agent_statusAux (responses : Nat → HttpResult) (task_id : String)
    (interval timeout max_retries : Nat) :
    Nat → Nat → Nat → Nat → List String → Option JDict × List String
  | 0, _, _, _, log => (none, log)
  | fuel + 1, i, elapsed, retries, log =>
      if elapsed < timeout then
        match responses i with
        | .netErr m =>
            let log := log ++ ["Network error while checking status: " ++ m]
            if retries < max_retries then
              poll_agent_statusAux responses task_id interval timeout max_retries
                fuel (i + 1) (elapsed + interval) (retries + 1)
                (log ++ ["Retrying in " ++ natStr interval ++ " seconds... (retry " ++
                  natStr (retries + 1) ++ "/" ++ natStr max_retries ++ ")"])
            else
              (none, log ++ ["Maximum retries (" ++ natStr max_retries ++
                ") reached. Giving up."])
        | .success code body =>
            if code ≠ 200 then
              let log := log ++ ["Error checking status: Status code " ++ natStr code]
              if 500 ≤ code ∧ code < 600 ∧ retries < max_retries then
                poll_agent_statusAux responses task_id interval timeout max_retries
                  fuel (i + 1) (elapsed + interval) (retries + 1)
                  (log ++ ["Retrying in " ++ natStr interval ++ " seconds... (retry " ++
                    natStr (retries + 1) ++ "/" ++ natStr max_retries ++ ")"])
              else
                (none, log)
            else
              match body with
              | none =>
                  poll_agent_statusAux responses task_id interval timeout max_retries
                    fuel (i + 1) (elapsed + interval) 0
                    (log ++ ["Error: Invalid JSON response from server"])
              | some result =>
                  if isTerminalStatus result then
                    (some result, log)
                  else
                    poll_agent_statusAux responses task_id interval timeout max_retries
                      fuel (i + 1) (elapsed + interval) 0
                      (log ++ ["Task " ++ task_id ++ " is still running... (elapsed: " ++
                        natStr elapsed ++ "s)"])
      else
        (none, log ++ ["Timeout reached after " ++ natStr timeout ++ " seconds"])

/-- `BrowserUseClient.poll_agent_status(task_id, interval, timeout,
max_retries)` run against the response trace `responses`, starting at
elapsed time 0 with a fresh retry counter. -/
def poll_agent_status (responses : Nat → HttpResult) (task_id : String)
    (interval timeout max_retries : Nat) : Option JDict × List String :=
  poll_agent_statusAux responses task_id interval timeout max_retries
    (timeout + 1) 0 0 0 []

/-- A polling attempt that can never end the loop: a 200 response whose
body is invalid JSON or parses to a non-terminal record. -/
def nonstopResponse (r : HttpResult) : Prop :=
  ∃ body, r = HttpResult.success 200 body ∧
    ∀ d, body = some d → isTerminalStatus d = false

/-- The two job kinds whose submissions share the registry. -/
inductive JobKind where
  | agent
  | search

/-- One submission through the corresponding endpoint, paired with the id
it allocates. -/
def submitOne (k : JobKind) (st : Registry) : Registry × String :=
  match k with
  | .agent => ((start_agent_run st).1, agentTaskId st)
  | .search => ((start_deep_search st).1, searchTaskId st)

/-- A sequence of submissions (agent runs and deep searches in any
order), returning the final registry and the ids in submission order. -/
def runSubmits : List JobKind → Registry → Registry × List String
  | [], st => (st, [])
  | k :: ks, st =>
      let p := submitOne k st
      let q := runSubmits ks p.1
      (q.1, p.2 :: q.2)

/-- The id a submission of kind `k` allocates when the registry holds
`i - 1` records: `task_i` or `search_i`. -/
def kindIdAt : JobKind → Nat → String
  | .agent, i => "task_" ++ natStr i
  | .search, i => "search_" ++ natStr i

/-- Every key of the registry was allocated by some earlier submission:
it has the shape `task_i` / `search_i` with `1 ≤ i ≤ len`. -/
def goodKey (len : Nat) (key : String) : Prop :=
  ∃ k i, 1 ≤ i ∧ i ≤ len ∧ key = kindIdAt k i

/-- Registry invariant maintained by the submission endpoints: distinct
keys, all of allocated shape bounded by the registry size. -/
def invReg (st : Registry) : Prop :=
  (alKeys st).Nodup ∧ ∀ key ∈ alKeys st, goodKey st.length key

/-- Registry after submitting one agent run whose operation raised
`ValueError("boom")`: the executor stored the `"Error: boom"` record. -/
def stBoom : Registry :=
  run_agent_background "task_1" (.ok (.error "boom")) (start_agent_run []).1

/-- The terminal record stored for the `"boom"` job. -/
def boomRecord : JDict := run_agent_task "task_1" (.error "boom")

/-- Registry after one agent run completed with a structured (list-valued)
`model_actions` — the shape the status endpoint's `isinstance` guard
exists for (src/api.py:256-258). -/
def stList : Registry :=
  run_agent_background "task_1"
    (.ok (.ok ⟨JVal.str "done", JVal.str "", JVal.list [JVal.str "click"],
      JVal.str "", JVal.null, JVal.null, JVal.null⟩))
    (start_agent_run []).1

/-- Registry after one agent run whose operation succeeded with a
non-empty `errors` component alongside a non-empty `final_result`. -/
def stBothPopulated : Registry :=
  run_agent_background "task_1"
    (.ok (.ok ⟨JVal.str "done", JVal.str "browser crashed on step 3",
      JVal.str "[]", JVal.str "[]", JVal.null, JVal.null, JVal.null⟩))
    (start_agent_run []).1

/-- The completed record holding both a result and an error message. -/
def bothPopulatedRecord : JDict :=
  run_agent_task "task_1"
    (.ok ⟨JVal.str "done", JVal.str "browser crashed on step 3",
      JVal.str "[]", JVal.str "[]", JVal.null, JVal.null, JVal.null⟩)

/-- A terminal response body used in the polling scenarios. -/
def pollTermRecord : JDict :=
  [("status", JVal.str "completed"), ("final_result", JVal.str "R")]

/-- Response trace for the retry-boundary scenario: three consecutive
503 responses, then a 200 carrying a terminal record. -/
def sc503 : Nat → HttpResult := fun i =>
  if i < 3 then .success 503 none else .success 200 (some pollTermRecord)

/-- Response trace of a job that never reaches a terminal status: every
poll yields 200 with the in-flight record. -/
def scStuck : Nat → HttpResult := fun _ => .success 200 (some runningRecord)

/-- Response trace where every poll fails at the transport level. -/
def scNetErr : Nat → HttpResult := fun _ => .netErr "conn refused"

/-- Response trace for a job whose execution failed: the poller reads the
terminal `status = "error"` record. -/
def scJobFailed : Nat → HttpResult := fun _ => .success 200 (some boomRecord)

/-! Association-list lemmas: Python dict read/assignment interaction. -/

theorem alGet_alSet_self {α : Type} (l : List (String × α)) (k : String) (v : α) :
    alGet (alSet l k v) k = some v := by
  induction l with
  | nil => simp [alSet, alGet]
  | cons h t ih =>
      obtain ⟨k', v'⟩ := h
      by_cases hk : k' = k
      · subst hk
        simp [alSet, alGet]
      · simp [alSet, alGet, hk, ih]

theorem alGet_alSet_ne {α : Type} (l : List (String × α)) (k k' : String) (v : α)
    (h : k' ≠ k) : alGet (alSet l k v) k' = alGet l k' := by
  induction l with
  | nil => simp [alSet, alGet, Ne.symm h]
  | cons p t ih =>
      obtain ⟨k'', v''⟩ := p
      by_cases hk : k'' = k
      · subst hk
        simp [alSet, alGet, Ne.symm h]
      · simp [alSet, alGet, hk, ih]

theorem alKeys_cons {α : Type} (k : String) (v : α) (t : List (String × α)) :
    alKeys ((k, v) :: t) = k :: alKeys t := rfl

theorem mem_alKeys_of_alGet {α : Type} {l : List (String × α)} {k : String} {v : α}
    (h : alGet l k = some v) : k ∈ alKeys l := by
  induction l with
  | nil => simp [alGet] at h
  | cons p t ih =>
      obtain ⟨k', v'⟩ := p
      rw [alKeys_cons]
      by_cases hk : k' = k
      · subst hk
        simp
      · rw [alGet, if_neg hk] at h
        exact List.mem_cons_of_mem _ (ih h)

theorem alGet_eq_none_of_not_mem {α : Type} {l : List (String × α)} {k : String}
    (h : k ∉ alKeys l) : alGet l k = none := by
  induction l with
  | nil => simp [alGet]
  | cons p t ih =>
      obtain ⟨k', v'⟩ := p
      rw [alKeys_cons] at h
      simp only [List.mem_cons, not_or] at h
      rw [alGet, if_neg (fun hh => h.1 hh.symm)]
      exact ih h.2

theorem alSet_append_of_not_mem {α : Type} {l : List (String × α)} {k : String}
    (v : α) (h : k ∉ alKeys l) : alSet l k v = l ++ [(k, v)] := by
  induction l with
  | nil => simp [alSet]
  | cons p t ih =>
      obtain ⟨k', v'⟩ := p
      rw [alKeys_cons] at h
      simp only [List.mem_cons, not_or] at h
      rw [alSet, if_neg (fun hh => h.1 hh.symm)]
      simp [ih h.2]

theorem alKeys_alSet_mem {α : Type} {l : List (String × α)} {k : String} (v : α)
    (h : k ∈ alKeys l) : alKeys (alSet l k v) = alKeys l := by
  induction l with
  | nil => simp [alKeys] at h
  | cons p t ih =>
      obtain ⟨k', v'⟩ := p
      by_cases hk : k' = k
      · subst hk
        rw [alSet, if_pos rfl, alKeys_cons, alKeys_cons]
      · rw [alKeys_cons] at h
        rcases List.mem_cons.mp h with h1 | h1
        · exact absurd h1.symm hk
        · rw [alSet, if_neg hk, alKeys_cons, alKeys_cons, ih h1]

theorem alSet_eq_self {α : Type} {l : List (String × α)} {k : String} {v : α}
    (h : alGet l k = some v) : alSet l k v = l := by
  induction l with
  | nil => simp [alGet] at h
  | cons p t ih =>
      obtain ⟨k', v'⟩ := p
      by_cases hk : k' = k
      · subst hk
        rw [alGet, if_pos rfl] at h
        cases h
        rw [alSet, if_pos rfl]
      · rw [alGet, if_neg hk] at h
        rw [alSet, if_neg hk, ih h]

/-! Lemmas about the in-place stringification done by `get_agent_status`. -/

theorem alGet_coerceKey_ne (d : JDict) (k k' : String) (h : k' ≠ k) :
    alGet (coerceKey d k) k' = alGet d k' := by
  unfold coerceKey
  cases hv : alGet d k with
  | none => rfl
  | some v =>
      by_cases hs : v.isStr
      · simp [hs]
      · simp [hs, alGet_alSet_ne d k k' _ h]

theorem alGet_coerceErrors_ne (d : JDict) (k' : String) (h : k' ≠ "errors") :
    alGet (coerceErrors d) k' = alGet d k' := by
  unfold coerceErrors
  cases hv : alGet d "errors" with
  | none => rfl
  | some v =>
      by_cases hs : v.isStr
      · simp [hs]
      · simp [hs, alGet_alSet_ne d "errors" k' _ h]

theorem isStr_alGet_coerceKey {d : JDict} {k : String} {v : JVal}
    (h : alGet (coerceKey d k) k = some v) : v.isStr = true := by
  cases hv : alGet d k with
  | none =>
      simp only [coerceKey, hv] at h
      cases h
  | some v0 =>
      simp only [coerceKey, hv] at h
      by_cases hs : v0.isStr
      · rw [if_pos hs, hv] at h
        cases h
        exact hs
      · rw [if_neg hs, alGet_alSet_self] at h
        cases h
        rfl

theorem isStr_alGet_coerceErrors {d : JDict} {v : JVal}
    (h : alGet (coerceErrors d) "errors" = some v) : v.isStr = true := by
  cases hv : alGet d "errors" with
  | none =>
      simp only [coerceErrors, hv] at h
      cases h
  | some v0 =>
      simp only [coerceErrors, hv] at h
      by_cases hs : v0.isStr
      · rw [if_pos hs, hv] at h
        cases h
        exact hs
      · rw [if_neg hs, alGet_alSet_self] at h
        cases h
        by_cases ht : v0.truthy <;> simp [ht, JVal.isStr]

theorem coerceKey_eq_of_isStr {d : JDict} {k : String}
    (h : ∀ v, alGet d k = some v → v.isStr = true) : coerceKey d k = d := by
  cases hv : alGet d k with
  | none => simp only [coerceKey, hv]
  | some v => simp only [coerceKey, hv, if_pos (h v hv)]

theorem coerceErrors_eq_of_isStr {d : JDict}
    (h : ∀ v, alGet d "errors" = some v → v.isStr = true) : coerceErrors d = d := by
  cases hv : alGet d "errors" with
  | none => simp only [coerceErrors, hv]
  | some v => simp only [coerceErrors, hv, if_pos (h v hv)]

theorem alGet_coerceTaskData_ne (d : JDict) (k' : String)
    (h1 : k' ≠ "model_actions") (h2 : k' ≠ "model_thoughts") (h3 : k' ≠ "errors") :
    alGet (coerceTaskData d) k' = alGet d k' := by
  unfold coerceTaskData
  rw [alGet_coerceErrors_ne _ _ h3, alGet_coerceKey_ne _ _ _ h2,
    alGet_coerceKey_ne _ _ _ h1]

theorem alGet_coerceTaskData_status (d : JDict) :
    alGet (coerceTaskData d) "status" = alGet d "status" :=
  alGet_coerceTaskData_ne d "status" (by decide) (by decide) (by decide)

theorem coerceTaskData_idem (d : JDict) :
    coerceTaskData (coerceTaskData d) = coerceTaskData d := by
  have hma : ∀ v, alGet (coerceTaskData d) "model_actions" = some v → v.isStr = true := by
    intro v hv
    unfold coerceTaskData at hv
    rw [alGet_coerceErrors_ne _ _ (by decide),
      alGet_coerceKey_ne _ _ _ (by decide)] at hv
    exact isStr_alGet_coerceKey hv
  have hmt : ∀ v, alGet (coerceTaskData d) "model_thoughts" = some v → v.isStr = true := by
    intro v hv
    unfold coerceTaskData at hv
    rw [alGet_coerceErrors_ne _ _ (by decide)] at hv
    exact isStr_alGet_coerceKey hv
  have herr : ∀ v, alGet (coerceTaskData d) "errors" = some v → v.isStr = true := by
    intro v hv
    exact isStr_alGet_coerceErrors hv
  conv_lhs => rw [coerceTaskData]
  rw [coerceKey_eq_of_isStr hma]
  rw [coerceKey_eq_of_isStr hmt, coerceErrors_eq_of_isStr herr]

theorem isInitializing_eq_false_of_terminal {d : JDict}
    (h : isTerminalStatus d = true) : isInitializing d = false := by
  unfold isTerminalStatus at h
  unfold isInitializing
  rcases Bool.or_eq_true_iff.mp h with h1 | h1 <;>
    rw [beq_iff_eq] at h1 <;> simp [h1]

theorem isTerminalStatus_coerceTaskData (d : JDict) :
    isTerminalStatus (coerceTaskData d) = isTerminalStatus d := by
  unfold isTerminalStatus
  rw [alGet_coerceTaskData_status]

/-! Decimal numerals: `natStr` is injective and consists of digits. -/

theorem digitsLE_spec (fuel : Nat) : ∀ n, n ≤ fuel → fromDigitsLE (digitsLE fuel n) = n := by
  induction fuel with
  | zero =>
      intro n h
      interval_cases n
      simp [digitsLE, fromDigitsLE]
  | succ fuel ih =>
      intro n h
      by_cases hn : n = 0
      · subst hn
        simp [digitsLE, fromDigitsLE]
      · rw [digitsLE, if_neg hn, fromDigitsLE]
        have hdiv : n / 10 ≤ fuel := by
          have hlt : n / 10 < n := Nat.div_lt_self (Nat.pos_of_ne_zero hn) (by omega)
          omega
        rw [ih _ hdiv]
        omega

theorem fromDigits_natDigits (n : Nat) : fromDigitsLE (natDigits n) = n :=
  digitsLE_spec n n le_rfl

theorem natDigits_inj {m n : Nat} (h : natDigits m = natDigits n) : m = n := by
  have h2 := congrArg fromDigitsLE h
  rwa [fromDigits_natDigits, fromDigits_natDigits] at h2

theorem digitsLE_lt_ten (fuel : Nat) : ∀ n d, d ∈ digitsLE fuel n → d < 10 := by
  induction fuel with
  | zero =>
      intro n d h
      simp [digitsLE] at h
  | succ fuel ih =>
      intro n d h
      by_cases hn : n = 0
      · subst hn
        simp [digitsLE] at h
      · rw [digitsLE, if_neg hn] at h
        rcases List.mem_cons.mp h with h1 | h1
        · subst h1
          exact Nat.mod_lt _ (by omega)
        · exact ih _ _ h1

theorem digitChar_inj_lt_ten {d e : Nat} (hd : d < 10) (he : e < 10)
    (h : Nat.digitChar d = Nat.digitChar e) : d = e := by
  interval_cases d <;> interval_cases e <;> first | rfl | exact absurd h (by decide)

theorem digitChar_isDigit {d : Nat} (hd : d < 10) : (Nat.digitChar d).isDigit = true := by
  interval_cases d <;> decide

theorem map_digitChar_inj : ∀ {ds es : List Nat}, (∀ d ∈ ds, d < 10) → (∀ e ∈ es, e < 10) →
    ds.map Nat.digitChar = es.map Nat.digitChar → ds = es := by
  intro ds
  induction ds with
  | nil =>
      intro es _ _ h
      cases es with
      | nil => rfl
      | cons e es => simp at h
  | cons d ds ih =>
      intro es hd he h
      cases es with
      | nil => simp at h
      | cons e es =>
          simp only [List.map_cons, List.cons.injEq] at h
          have hde := digitChar_inj_lt_ten (hd d (List.mem_cons_self d ds))
            (he e (List.mem_cons_self e es)) h.1
          rw [hde, ih (fun x hx => hd x (List.mem_cons_of_mem _ hx))
            (fun x hx => he x (List.mem_cons_of_mem _ hx)) h.2]

theorem natStr_inj {m n : Nat} (h : natStr m = natStr n) : m = n := by
  unfold natStr at h
  have h2 : (if m = 0 then ['0'] else (natDigits m).reverse.map Nat.digitChar) =
      (if n = 0 then ['0'] else (natDigits n).reverse.map Nat.digitChar) := by
    injection h
  have revBound : ∀ j : Nat, ∀ e ∈ (natDigits j).reverse, e < 10 := by
    intro j e he
    exact digitsLE_lt_ten j j e (List.mem_reverse.mp he)
  have zeroCase : ∀ j : Nat, j ≠ 0 →
      (['0'] : List Char) = (natDigits j).reverse.map Nat.digitChar → False := by
    intro j hj hEq
    have h3 : ([0] : List Nat).map Nat.digitChar = (natDigits j).reverse.map Nat.digitChar := hEq
    have h4 := map_digitChar_inj (by simp) (revBound j) h3
    have h5 : natDigits j = [0] := by
      have h6 := congrArg List.reverse h4
      simpa using h6.symm
    have h7 := fromDigits_natDigits j
    rw [h5] at h7
    simp [fromDigitsLE] at h7
    exact hj h7.symm
  by_cases hm : m = 0 <;> by_cases hn : n = 0
  · omega
  · subst hm
    rw [if_pos rfl, if_neg hn] at h2
    exact absurd h2 (fun hh => zeroCase n hn hh)
  · subst hn
    rw [if_pos rfl, if_neg hm] at h2
    exact absurd h2.symm (fun hh => zeroCase m hm hh)
  · rw [if_neg hm, if_neg hn] at h2
    have h4 := map_digitChar_inj (revBound m) (revBound n) h2
    have h5 := congrArg List.reverse h4
    simp only [List.reverse_reverse] at h5
    exact natDigits_inj h5

theorem natStr_data_isDigit {n : Nat} {c : Char} (h : c ∈ (natStr n).data) :
    c.isDigit = true := by
  have h2 : c ∈ (if n = 0 then ['0'] else (natDigits n).reverse.map Nat.digitChar) := h
  by_cases hn : n = 0
  · rw [if_pos hn] at h2
    simp at h2
    subst h2
    decide
  · rw [if_neg hn] at h2
    rcases List.mem_map.mp h2 with ⟨d, hd, hdc⟩
    rw [← hdc]
    exact digitChar_isDigit (digitsLE_lt_ten n n d (List.mem_reverse.mp hd))

/-! Allocated ids: shape, injectivity, freshness. -/

theorem str_append_left_cancel {p a b : String} (h : p ++ a = p ++ b) : a = b := by
  have h2 := congrArg String.data h
  rw [String.data_append, String.data_append] at h2
  exact String.ext (List.append_cancel_left h2)

theorem task_ne_search (a b : String) : "task_" ++ a ≠ "search_" ++ b := by
  intro h
  have h2 := congrArg String.data h
  rw [String.data_append, String.data_append] at h2
  rw [show "task_".data = ['t', 'a', 's', 'k', '_'] from by decide,
    show "search_".data = ['s', 'e', 'a', 'r', 'c', 'h', '_'] from by decide] at h2
  simp only [List.cons_append] at h2
  injection h2 with hhead htail
  exact absurd hhead (by decide)

theorem kindIdAt_inj {k k' : JobKind} {i i' : Nat}
    (h : kindIdAt k i = kindIdAt k' i') : i = i' := by
  cases k <;> cases k' <;> simp only [kindIdAt] at h
  · exact natStr_inj (str_append_left_cancel h)
  · exact absurd h (task_ne_search _ _)
  · exact absurd h.symm (task_ne_search _ _)
  · exact natStr_inj (str_append_left_cancel h)

/-! Submission sequences: freshness invariant of the id allocation. -/

theorem submitOne_eq (k : JobKind) (st : Registry) :
    submitOne k st = (alSet st (kindIdAt k (st.length + 1)) runningRecord,
      kindIdAt k (st.length + 1)) := by
  cases k <;> rfl

theorem fresh_id (k : JobKind) {st : Registry} (hinv : invReg st) :
    kindIdAt k (st.length + 1) ∉ alKeys st := by
  intro hmem
  rcases hinv.2 _ hmem with ⟨k', i, h1, h2, h3⟩
  have h4 := kindIdAt_inj h3
  omega

theorem invReg_nil : invReg [] := by
  constructor
  · exact List.nodup_nil
  · intro key h
    simp [alKeys] at h

theorem submit_preserves (k : JobKind) {st : Registry} (hinv : invReg st) :
    invReg (submitOne k st).1 ∧ (submitOne k st).2 ∉ alKeys st ∧
      alKeys (submitOne k st).1 = alKeys st ++ [(submitOne k st).2] := by
  have hfresh := fresh_id k hinv
  rw [submitOne_eq]
  have happ := alSet_append_of_not_mem (α := JDict) runningRecord hfresh
  have hkeys : alKeys (alSet st (kindIdAt k (st.length + 1)) runningRecord) =
      alKeys st ++ [kindIdAt k (st.length + 1)] := by
    rw [happ]
    simp [alKeys]
  have hlen : (alSet st (kindIdAt k (st.length + 1)) runningRecord).length =
      st.length + 1 := by
    rw [happ]
    simp
  refine ⟨⟨?_, ?_⟩, hfresh, hkeys⟩
  · rw [hkeys, List.nodup_append]
    refine ⟨hinv.1, List.nodup_singleton _, ?_⟩
    intro x hx hx'
    rw [List.mem_singleton] at hx'
    subst hx'
    exact hfresh hx
  · intro key hk
    rw [hkeys] at hk
    rw [hlen]
    rcases List.mem_append.mp hk with h | h
    · rcases hinv.2 _ h with ⟨k', i, hi1, hi2, hi3⟩
      exact ⟨k', i, hi1, by omega, hi3⟩
    · rw [List.mem_singleton] at h
      exact ⟨k, st.length + 1, by omega, le_rfl, h⟩

theorem runSubmits_spec : ∀ (ks : List JobKind) (st : Registry), invReg st →
    ((runSubmits ks st).2.Nodup ∧ (∀ id ∈ (runSubmits ks st).2, id ∉ alKeys st) ∧
      invReg (runSubmits ks st).1) := by
  intro ks
  induction ks with
  | nil =>
      intro st h
      simp only [runSubmits]
      exact ⟨List.nodup_nil, by intro id h'; simp at h', h⟩
  | cons k ks ih =>
      intro st hinv
      obtain ⟨hinv', hfresh, hkeys⟩ := submit_preserves k hinv
      obtain ⟨ihN, ihF, ihI⟩ := ih (submitOne k st).1 hinv'
      have hred : runSubmits (k :: ks) st =
          ((runSubmits ks (submitOne k st).1).1,
           (submitOne k st).2 :: (runSubmits ks (submitOne k st).1).2) := rfl
      rw [hred]
      refine ⟨?_, ?_, ihI⟩
      · rw [List.nodup_cons]
        refine ⟨?_, ihN⟩
        intro hmem
        have hin : (submitOne k st).2 ∈ alKeys (submitOne k st).1 := by
          rw [hkeys]
          simp
        exact ihF _ hmem hin
      · intro id hid
        rcases List.mem_cons.mp hid with h | h
        · subst h
          exact hfresh
        · intro hmem
          have : id ∈ alKeys (submitOne k st).1 := by
            rw [hkeys]
            exact List.mem_append_left _ hmem
          exact ihF _ h this

/-! Python `split` on a single-occurrence separator. -/

theorem leadsWith_append_self (stail b : List Char) :
    leadsWith stail (stail ++ b) = true := by
  induction stail with
  | nil => rfl
  | cons x xs ih => simp [leadsWith, ih]

theorem pySplitAux_no_occur (s0 : Char) (stail : List Char) :
    ∀ (b acc : List Char) (fuel : Nat), b.length ≤ fuel → (∀ c ∈ b, c ≠ s0) →
      pySplitAux s0 stail fuel acc b = [acc.reverse ++ b] := by
  intro b
  induction b with
  | nil =>
      intro acc fuel _ _
      cases fuel <;> simp [pySplitAux]
  | cons c cs ih =>
      intro acc fuel hf hc
      cases fuel with
      | zero => simp at hf
      | succ fuel =>
          rw [pySplitAux]
          have hcne : (c == s0) = false := by
            simp [hc c (List.mem_cons_self c cs)]
          rw [hcne, Bool.false_and, if_neg (by simp)]
          rw [ih (c :: acc) fuel (by simpa using hf)
            (fun x hx => hc x (List.mem_cons_of_mem _ hx))]
          simp

theorem pySplitAux_single (s0 : Char) (stail : List Char) :
    ∀ (a b acc : List Char) (fuel : Nat),
      (a ++ s0 :: (stail ++ b)).length ≤ fuel →
      (∀ c ∈ a, c ≠ s0) → (∀ c ∈ b, c ≠ s0) →
      pySplitAux s0 stail fuel acc (a ++ s0 :: (stail ++ b)) =
        [acc.reverse ++ a, b] := by
  intro a
  induction a with
  | nil =>
      intro b acc fuel hf ha hb
      simp only [List.nil_append]
      simp only [List.nil_append, List.length_cons, List.length_append] at hf
      cases fuel with
      | zero => omega
      | succ fuel =>
          rw [pySplitAux]
          have hcond : (s0 == s0 && leadsWith stail (stail ++ b)) = true := by
            simp [leadsWith_append_self]
          rw [hcond, if_pos rfl, List.drop_left]
          rw [pySplitAux_no_occur s0 stail b [] fuel (by omega) hb]
          simp

  | cons x a' ih =>
      intro b acc fuel hf ha hb
      have hx : x ≠ s0 := ha x (List.mem_cons_self x a')
      simp only [List.cons_append, List.length_cons] at hf
      cases fuel with
      | zero => omega
      | succ fuel =>
          simp only [List.cons_append]
          rw [pySplitAux]
          have hcond : (x == s0 && leadsWith stail (a' ++ s0 :: (stail ++ b))) = false := by
            simp [hx]
          rw [hcond, if_neg (by simp)]
          rw [ih b (x :: acc) fuel (by simpa using hf)
            (fun c hc => ha c (List.mem_cons_of_mem _ hc)) hb]
          simp

/-! Message round-trip and poller step lemmas. -/

theorem no_I_natStr (n : Nat) : ∀ c ∈ (natStr n).data, c ≠ 'I' := by
  intro c hc he
  subst he
  have h := natStr_data_isDigit hc
  exact absurd h (by decide)

theorem pySplit_one_sep (head tid : String)
    (hhead : ∀ c ∈ head.data, c ≠ 'I') (hid : ∀ c ∈ tid.data, c ≠ 'I') :
    pySplit (head ++ ("ID: " ++ tid)) "ID: " = [head, tid] := by
  have hunfold : pySplit (head ++ ("ID: " ++ tid)) "ID: " =
      (pySplitAux 'I' ['D', ':', ' '] ((head ++ ("ID: " ++ tid)).data.length) []
        ((head ++ ("ID: " ++ tid)).data)).map String.mk := rfl
  have hdata : (head ++ ("ID: " ++ tid)).data =
      head.data ++ 'I' :: (['D', ':', ' '] ++ tid.data) := by
    rw [String.data_append, String.data_append,
      show "ID: ".data = 'I' :: ['D', ':', ' '] from by decide]
    simp
  rw [hunfold, hdata]
  rw [pySplitAux_single 'I' ['D', ':', ' '] head.data tid.data [] _ le_rfl hhead hid]
  simp

theorem pollAux_terminal (responses : Nat → HttpResult) (task_id : String)
    (interval timeout max_retries fuel i elapsed retries : Nat) (log : List String)
    (d : JDict) (he : elapsed < timeout)
    (hresp : responses i = HttpResult.success 200 (some d))
    (hterm : isTerminalStatus d = true) :
    poll_agent_statusAux responses task_id interval timeout max_retries
      (fuel + 1) i elapsed retries log = (some d, log) := by
  rw [poll_agent_statusAux, if_pos he, hresp]
  simp [hterm]

theorem pollAux_4xx (responses : Nat → HttpResult) (task_id : String)
    (interval timeout max_retries fuel i elapsed retries : Nat) (log : List String)
    (code : Nat) (body : Option JDict) (he : elapsed < timeout)
    (hresp : responses i = HttpResult.success code body)
    (hcode : code ≠ 200) (h5 : ¬(500 ≤ code ∧ code < 600)) :
    poll_agent_statusAux responses task_id interval timeout max_retries
      (fuel + 1) i elapsed retries log =
      (none, log ++ ["Error checking status: Status code " ++ natStr code]) := by
  rw [poll_agent_statusAux, if_pos he, hresp]
  simp only [if_pos hcode]
  rw [if_neg (by tauto)]

theorem pollAux_5xx_retry (responses : Nat → HttpResult) (task_id : String)
    (interval timeout max_retries fuel i elapsed retries : Nat) (log : List String)
    (code : Nat) (body : Option JDict) (he : elapsed < timeout)
    (hresp : responses i = HttpResult.success code body)
    (hcode : code ≠ 200) (h5 : 500 ≤ code) (h6 : code < 600) (hr : retries < max_retries) :
    poll_agent_statusAux responses task_id interval timeout max_retries
      (fuel + 1) i elapsed retries log =
      poll_agent_statusAux responses task_id interval timeout max_retries
        fuel (i + 1) (elapsed + interval) (retries + 1)
        (log ++ ["Error checking status: Status code " ++ natStr code] ++
          ["Retrying in " ++ natStr interval ++ " seconds... (retry " ++
            natStr (retries + 1) ++ "/" ++ natStr max_retries ++ ")"]) := by
  rw [poll_agent_statusAux, if_pos he, hresp]
  simp only [if_pos hcode]
  rw [if_pos ⟨h5, h6, hr⟩]

theorem pollAux_net_retry (responses : Nat → HttpResult) (task_id : String)
    (interval timeout max_retries fuel i elapsed retries : Nat) (log : List String)
    (m : String) (he : elapsed < timeout)
    (hresp : responses i = HttpResult.netErr m) (hr : retries < max_retries) :
    poll_agent_statusAux responses task_id interval timeout max_retries
      (fuel + 1) i elapsed retries log =
      poll_agent_statusAux responses task_id interval timeout max_retries
        fuel (i + 1) (elapsed + interval) (retries + 1)
        (log ++ ["Network error while checking status: " ++ m] ++
          ["Retrying in " ++ natStr interval ++ " seconds... (retry " ++
            natStr (retries + 1) ++ "/" ++ natStr max_retries ++ ")"]) := by
  rw [poll_agent_statusAux, if_pos he, hresp]
  dsimp only
  rw [if_pos hr]

theorem pollAux_net_giveup (responses : Nat → HttpResult) (task_id : String)
    (interval timeout max_retries fuel i elapsed retries : Nat) (log : List String)
    (m : String) (he : elapsed < timeout)
    (hresp : responses i = HttpResult.netErr m) (hr : ¬retries < max_retries) :
    poll_agent_statusAux responses task_id interval timeout max_retries
      (fuel + 1) i elapsed retries log =
      (none, log ++ ["Network error while checking status: " ++ m] ++
        ["Maximum retries (" ++ natStr max_retries ++ ") reached. Giving up."]) := by
  rw [poll_agent_statusAux, if_pos he, hresp]
  dsimp only
  rw [if_neg hr]

theorem pollAux_timeout_reached (responses : Nat → HttpResult) (task_id : String)
    (interval timeout max_retries : Nat) (hint : 0 < interval)
    (hresp : ∀ j, nonstopResponse (responses j)) :
    ∀ (fuel i elapsed retries : Nat) (log : List String), timeout - elapsed < fuel →
      ∃ log', poll_agent_statusAux responses task_id interval timeout max_retries
        fuel i elapsed retries log =
        (none, log' ++ ["Timeout reached after " ++ natStr timeout ++ " seconds"]) := by
  intro fuel
  induction fuel with
  | zero =>
      intro i elapsed retries log h
      omega
  | succ fuel ih =>
      intro i elapsed retries log h
      by_cases he : elapsed < timeout
      · rcases hresp i with ⟨body, hbody, hterm⟩
        rw [poll_agent_statusAux, if_pos he, hbody]
        simp only [if_neg (by simp : ¬(200 ≠ 200))]
        cases body with
        | none => exact ih _ _ _ _ (by omega)
        | some d =>
            dsimp only
            rw [hterm d rfl]
            simp only [Bool.false_eq_true, if_false]
            exact ih _ _ _ _ (by omega)
      · rw [poll_agent_statusAux, if_neg he]
        exact ⟨log, rfl⟩

theorem pollAux_5xx_giveup (responses : Nat → HttpResult) (task_id : String)
    (interval timeout max_retries fuel i elapsed retries : Nat) (log : List String)
    (code : Nat) (body : Option JDict) (he : elapsed < timeout)
    (hresp : responses i = HttpResult.success code body)
    (hcode : code ≠ 200) (hr : ¬retries < max_retries) :
    poll_agent_statusAux responses task_id interval timeout max_retries
      (fuel + 1) i elapsed retries log =
      (none, log ++ ["Error checking status: Status code " ++ natStr code]) := by
  rw [poll_agent_statusAux, if_pos he, hresp]
  simp only [if_pos hcode]
  rw [if_neg (by tauto)]

/-! Unfolding lemmas for the status endpoints. -/

theorem get_agent_status_none {st : Registry} {task_id : String}
    (h : alGet st task_id = none) :
    get_agent_status st task_id =
      (.error ⟨404, "Task " ++ task_id ++ " not found"⟩, st) := by
  unfold get_agent_status
  rw [h]

theorem get_agent_status_init {st : Registry} {task_id : String} {d : JDict}
    (h : alGet st task_id = some d) (hini : isInitializing d = true) :
    get_agent_status st task_id =
      (.ok [("status", JVal.str "running"),
        ("message", JVal.str ("Task " ++ task_id ++ " is still initializing"))], st) := by
  unfold get_agent_status
  rw [h]
  dsimp only
  rw [if_pos hini]

theorem get_agent_status_some {st : Registry} {task_id : String} {d : JDict}
    (h : alGet st task_id = some d) (hni : isInitializing d = false) :
    get_agent_status st task_id =
      (.ok (coerceTaskData d), alSet st task_id (coerceTaskData d)) := by
  unfold get_agent_status
  rw [h]
  dsimp only
  rw [hni]
  simp

theorem get_deep_search_status_snd (st : Registry) (task_id : String) :
    (get_deep_search_status st task_id).2 = st := by
  unfold get_deep_search_status
  cases h : alGet st task_id with
  | none => rfl
  | some d =>
      dsimp only
      by_cases hini : isInitializing d <;> simp [hini]

theorem get_deep_search_status_init {st : Registry} {task_id : String} {d : JDict}
    (h : alGet st task_id = some d) (hini : isInitializing d = true) :
    get_deep_search_status st task_id =
      (.ok [("status", JVal.str "running"),
        ("message", JVal.str ("Task " ++ task_id ++ " is still initializing"))], st) := by
  unfold get_deep_search_status
  rw [h]
  dsimp only
  rw [if_pos hini]

theorem append_ne_empty_left {p : String} (hp : p ≠ "") (e : String) : p ++ e ≠ "" := by
  intro h
  have h2 := congrArg String.data h
  rw [String.data_append] at h2
  have h3 : p.data = [] := (List.append_eq_nil.mp h2).1
  exact hp (String.ext h3)

theorem no_I_agentTaskId (st : Registry) : ∀ c ∈ (agentTaskId st).data, c ≠ 'I' := by
  intro c hc
  rw [show agentTaskId st = "task_" ++ natStr (st.length + 1) from rfl,
    String.data_append] at hc
  rcases List.mem_append.mp hc with h | h
  · intro he
    subst he
    revert h
    decide
  · exact no_I_natStr _ c h

theorem no_I_searchTaskId (st : Registry) : ∀ c ∈ (searchTaskId st).data, c ≠ 'I' := by
  intro c hc
  rw [show searchTaskId st = "search_" ++ natStr (st.length + 1) from rfl,
    String.data_append] at hc
  rcases List.mem_append.mp hc with h | h
  · intro he
    subst he
    revert h
    decide
  · exact no_I_natStr _ c h

/-- C1: for every registry state, each submission endpoint has inserted
the record `{"status": "running"}` under the allocated id by the time it
returns; that status is non-terminal (the code's `"running"` realises the
spec's Queued/Running), and a status query issued immediately after the
submission succeeds with the in-flight shape — it never signals
NotFound. -/
theorem C1_submission_immediately_visible (st : Registry) :
    (alGet (start_agent_run st).1 (agentTaskId st) = some runningRecord ∧
      alGet runningRecord "status" = some (JVal.str "running") ∧
      isTerminalStatus runningRecord = false ∧
      get_agent_status (start_agent_run st).1 (agentTaskId st) =
        (.ok [("status", JVal.str "running"),
          ("message", JVal.str ("Task " ++ agentTaskId st ++ " is still initializing"))],
         (start_agent_run st).1)) ∧
    (alGet (start_deep_search st).1 (searchTaskId st) = some runningRecord ∧
      get_deep_search_status (start_deep_search st).1 (searchTaskId st) =
        (.ok [("status", JVal.str "running"),
          ("message", JVal.str ("Task " ++ searchTaskId st ++ " is still initializing"))],
         (start_deep_search st).1)) := by
  have hA : alGet (start_agent_run st).1 (agentTaskId st) = some runningRecord :=
    alGet_alSet_self st (agentTaskId st) runningRecord
  have hS : alGet (start_deep_search st).1 (searchTaskId st) = some runningRecord :=
    alGet_alSet_self st (searchTaskId st) runningRecord
  refine ⟨⟨hA, by decide, by decide, ?_⟩, hS, ?_⟩
  · exact get_agent_status_init hA (by decide)
  · exact get_deep_search_status_init hS (by decide)

/-- C2: for every accepted submission, the background executor writes a
terminal record for exactly that id (all other records are untouched) on
every outcome of the underlying operation — success, an exception raised
by the operation or the result unpacking (captured as `"Error: <msg>"`),
and an exception escaping `run_agent_task` itself (captured as
`"Unhandled error: <msg>"`); the executor is a total function, so no
failure propagates out of it.  The deep-search executor likewise always
stores a terminal record, capturing a failure message in
`markdown_content`. -/
theorem C2_background_always_terminal (st : Registry) (task_id : String)
    (outcome : Except String (Except String AgentSuccess))
    (doutcome : Except String DeepSuccess) :
    (∃ r, alGet (run_agent_background task_id outcome st) task_id = some r ∧
       isTerminalStatus r = true) ∧
    (∀ id', id' ≠ task_id →
       alGet (run_agent_background task_id outcome st) id' = alGet st id') ∧
    (∀ e, outcome = .ok (.error e) →
       ∃ r, alGet (run_agent_background task_id outcome st) task_id = some r ∧
         alGet r "errors" = some (JVal.str ("Error: " ++ e)) ∧
         alGet r "status" = some (JVal.str "error")) ∧
    (∀ e, outcome = .error e →
       ∃ r, alGet (run_agent_background task_id outcome st) task_id = some r ∧
         alGet r "errors" = some (JVal.str ("Unhandled error: " ++ e)) ∧
         alGet r "status" = some (JVal.str "error")) ∧
    (∃ r, alGet (run_deep_search_background task_id doutcome st) task_id = some r ∧
       isTerminalStatus r = true) ∧
    (∀ e, doutcome = .error e →
       ∃ r, alGet (run_deep_search_background task_id doutcome st) task_id = some r ∧
         alGet r "markdown_content" = some (JVal.str ("Error: " ++ e)) ∧
         alGet r "status" = some (JVal.str "error")) := by
  refine ⟨?_, ?_, ?_, ?_, ?_, ?_⟩
  · rcases outcome with e | op
    · exact ⟨_, alGet_alSet_self st task_id _, by simp [isTerminalStatus, alGet]⟩
    · rcases op with e | r
      · exact ⟨_, alGet_alSet_self st task_id _,
          by simp [run_agent_task, isTerminalStatus, alGet]⟩
      · exact ⟨_, alGet_alSet_self st task_id _,
          by simp [run_agent_task, isTerminalStatus, alGet]⟩
  · intro id' hne
    rcases outcome with e | op <;>
      exact alGet_alSet_ne st task_id id' _ hne
  · intro e he
    subst he
    exact ⟨_, alGet_alSet_self st task_id _,
      by simp [run_agent_task, alGet], by simp [run_agent_task, alGet]⟩
  · intro e he
    subst he
    exact ⟨_, alGet_alSet_self st task_id _, by simp [alGet], by simp [alGet]⟩
  · rcases doutcome with e | r
    · exact ⟨_, alGet_alSet_self st task_id _, by simp [isTerminalStatus, alGet]⟩
    · exact ⟨_, alGet_alSet_self st task_id _, by simp [isTerminalStatus, alGet]⟩
  · intro e he
    subst he
    exact ⟨_, alGet_alSet_self st task_id _, by simp [alGet], by simp [alGet]⟩

/-- C3 counterexample: a reachable terminal record with both the result
payload and the error message populated.  The operation behind
`stBothPopulated` returned a non-empty `final_result` together with a
non-empty `errors` component; the executor copies both verbatim into the
completed record (src/api.py:156-168), so "exactly one of result/error is
populated once terminal" fails. -/
theorem C3_counterexample :
    alGet stBothPopulated "task_1" = some bothPopulatedRecord ∧
    isTerminalStatus bothPopulatedRecord = true ∧
    populatedB bothPopulatedRecord "final_result" = true ∧
    populatedB bothPopulatedRecord "errors" = true := by decide

/-- C3 amended: neither result nor error is populated while the record is
the in-flight placeholder; a record written by any failure path has
exactly the error message populated (result empty); but a record written
by the success path copies the operation's `final_result` and `errors`
components verbatim, so on the completed path either, both, or neither
field may be populated, as the operation dictates. -/
theorem C3_amended_terminal_population (task_id e : String) (s : AgentSuccess) :
    (populatedB runningRecord "final_result" = false ∧
      populatedB runningRecord "errors" = false ∧
      isTerminalStatus runningRecord = false) ∧
    (isTerminalStatus (run_agent_task task_id (.error e)) = true ∧
      populatedB (run_agent_task task_id (.error e)) "errors" = true ∧
      populatedB (run_agent_task task_id (.error e)) "final_result" = false) ∧
    (isTerminalStatus (run_agent_task task_id (.ok s)) = true ∧
      alGet (run_agent_task task_id (.ok s)) "final_result" = some s.final_result ∧
      alGet (run_agent_task task_id (.ok s)) "errors" = some s.errors) := by
  refine ⟨by decide, ⟨?_, ?_, ?_⟩, ?_, ?_, ?_⟩
  · simp [run_agent_task, isTerminalStatus, alGet]
  · simp [run_agent_task, populatedB, alGet, JVal.truthy]
    exact append_ne_empty_left (by decide) e
  · simp [run_agent_task, populatedB, alGet, JVal.truthy]
  · simp [run_agent_task, isTerminalStatus, alGet]
  · simp [run_agent_task, alGet]
  · simp [run_agent_task, alGet]

/-- C4 counterexample: the agent status query mutates the registry.  In
`stList` the completed record stores a list-valued `model_actions`; the
query stringifies it in place through the alias `task_data =
running_tasks[task_id]` (src/api.py:250-258), so the registry after the
query differs from the registry before it. -/
theorem C4_counterexample : (get_agent_status stList "task_1").2 ≠ stList := by decide

/-- C4 amended: a status query never adds or removes records, never
touches any other id's record, and never changes the queried record's
status; the deep-search status query leaves the registry entirely
unchanged.  (What the agent query may change, per the counterexample, is
only the stringification of the queried record's
`model_actions`/`model_thoughts`/`errors` sub-fields.) -/
theorem C4_amended_query_frame (st : Registry) (task_id : String) :
    (∀ id', id' ≠ task_id →
       alGet (get_agent_status st task_id).2 id' = alGet st id') ∧
    Option.map (fun d => alGet d "status") (alGet (get_agent_status st task_id).2 task_id) =
      Option.map (fun d => alGet d "status") (alGet st task_id) ∧
    alKeys (get_agent_status st task_id).2 = alKeys st ∧
    (get_deep_search_status st task_id).2 = st := by
  refine ⟨?_, ?_, ?_, get_deep_search_status_snd st task_id⟩ <;>
    rcases h : alGet st task_id with _ | d
  · intro id' _
    rw [get_agent_status_none h]
  · intro id' hne
    by_cases hini : isInitializing d
    · rw [get_agent_status_init h hini]
    · rw [get_agent_status_some h (Bool.not_eq_true _ ▸ hini)]
      exact alGet_alSet_ne st task_id id' _ hne
  · rw [get_agent_status_none h, h]
  · by_cases hini : isInitializing d
    · rw [get_agent_status_init h hini]
      dsimp only
      rw [h]
    · rw [get_agent_status_some h (Bool.not_eq_true _ ▸ hini)]
      dsimp only
      rw [alGet_alSet_self]
      simp [alGet_coerceTaskData_status]
  · rw [get_agent_status_none h]
  · by_cases hini : isInitializing d
    · rw [get_agent_status_init h hini]
    · rw [get_agent_status_some h (Bool.not_eq_true _ ▸ hini)]
      exact alKeys_alSet_mem _ (mem_alKeys_of_alGet h)

/-- C4 witness: the frame of the amended claim at a concrete state. -/
theorem C4_amended_witness :
    alGet (get_agent_status stBoom "task_1").2 "task_2" = alGet stBoom "task_2" ∧
    alKeys (get_agent_status stBoom "task_1").2 = alKeys stBoom :=
  ⟨(C4_amended_query_frame stBoom "task_1").1 "task_2" (by decide),
   (C4_amended_query_frame stBoom "task_1").2.2.1⟩

/-- C5 counterexample: the terminal payload for the `"boom"` job carries
the failure message under the key `errors` (src/api.py:176), not under a
field named `error`, and the payload is the full nine-field record, not
the two-field shape the claim states. -/
theorem C5_counterexample :
    alGet boomRecord "error" = none ∧
    (get_agent_status stBoom "task_1").1 ≠
      .ok [("status", JVal.str "error"), ("error", JVal.str "Error: boom")] := by decide

/-- C5 amended: for the job whose operation raised `"boom"`, the terminal
status query returns the stored record, whose `status` field is
`"error"` and whose `errors` field (that is the code's name for the
failure field) is `"Error: boom"`; a repeated query returns the identical
payload. -/
theorem C5_amended_boom_payload :
    (get_agent_status stBoom "task_1").1 = .ok boomRecord ∧
    alGet boomRecord "status" = some (JVal.str "error") ∧
    alGet boomRecord "errors" = some (JVal.str "Error: boom") ∧
    (get_agent_status (get_agent_status stBoom "task_1").2 "task_1").1 =
      (get_agent_status stBoom "task_1").1 := by decide

/-- C6: the status service's coercion of a stored terminal record to the
caller-facing payload is deterministic and stable: querying the same id
twice with no intervening write yields the identical payload, and the
second query leaves the registry exactly as the first left it (the first
query's in-place stringification is idempotent). -/
theorem C6_terminal_query_deterministic (st : Registry) (task_id : String) (d : JDict)
    (h : alGet st task_id = some d) (hterm : isTerminalStatus d = true) :
    (get_agent_status (get_agent_status st task_id).2 task_id).1 =
      (get_agent_status st task_id).1 ∧
    (get_agent_status (get_agent_status st task_id).2 task_id).2 =
      (get_agent_status st task_id).2 := by
  have hni : isInitializing d = false := isInitializing_eq_false_of_terminal hterm
  rw [get_agent_status_some h hni]
  have h2 : alGet (alSet st task_id (coerceTaskData d)) task_id =
      some (coerceTaskData d) := alGet_alSet_self st task_id (coerceTaskData d)
  have hni2 : isInitializing (coerceTaskData d) = false :=
    isInitializing_eq_false_of_terminal
      (by rw [isTerminalStatus_coerceTaskData]; exact hterm)
  rw [get_agent_status_some h2 hni2, coerceTaskData_idem]
  exact ⟨rfl, alSet_eq_self h2⟩

/-- C6 witness: the determinism at the concrete `"boom"` state. -/
theorem C6_witness :
    (get_agent_status (get_agent_status stBoom "task_1").2 "task_1").1 =
      (get_agent_status stBoom "task_1").1 :=
  (C6_terminal_query_deterministic stBoom "task_1" boomRecord (by decide) (by decide)).1

/-- C7: over any sequence of submissions (agent runs and deep searches in
any order) starting from the empty registry at process start, the
assigned ids are pairwise distinct — no id is ever reused, including
across the two job kinds. -/
theorem C7_ids_never_reused (ks : List JobKind) : ((runSubmits ks []).2).Nodup :=
  (runSubmits_spec ks [] invReg_nil).1

/-- C8: the id embedded in the submission response round-trips through the
documented "ID: " delimiter convention: for every registry state and both
submission endpoints, the client's split on "ID: " recovers exactly the
id under which the registry stores the placeholder record. -/
theorem C8_id_roundtrip (st : Registry) :
    (clientExtractId (start_agent_run st).2 = some (agentTaskId st) ∧
      alGet (start_agent_run st).1 (agentTaskId st) = some runningRecord) ∧
    (clientExtractId (start_deep_search st).2 = some (searchTaskId st) ∧
      alGet (start_deep_search st).1 (searchTaskId st) = some runningRecord) := by
  have hcatA : ("Agent run started with ID: " : String) ++ agentTaskId st =
      "Agent run started with " ++ ("ID: " ++ agentTaskId st) := by
    rw [← String.append_assoc]
    rw [show ("Agent run started with " : String) ++ "ID: " =
      "Agent run started with ID: " from by decide]
  have hcatS : ("Deep search started with ID: " : String) ++ searchTaskId st =
      "Deep search started with " ++ ("ID: " ++ searchTaskId st) := by
    rw [← String.append_assoc]
    rw [show ("Deep search started with " : String) ++ "ID: " =
      "Deep search started with ID: " from by decide]
  refine ⟨⟨?_, alGet_alSet_self st (agentTaskId st) runningRecord⟩,
    ?_, alGet_alSet_self st (searchTaskId st) runningRecord⟩
  · show (pySplit ("Agent run started with ID: " ++ agentTaskId st) "ID: ").get? 1 =
      some (agentTaskId st)
    rw [hcatA, pySplit_one_sep _ _ (by decide) (no_I_agentTaskId st)]
    rfl
  · show (pySplit ("Deep search started with ID: " ++ searchTaskId st) "ID: ").get? 1 =
      some (searchTaskId st)
    rw [hcatS, pySplit_one_sep _ _ (by decide) (no_I_searchTaskId st)]
    rfl

/-- C9: polling retry discipline.  At any point of the loop before the
timeout: a 4xx response is never retried and fails the poller
immediately; a 5xx response with remaining budget retries after one
fixed-interval sleep, incrementing the retry counter; a transport error
with remaining budget does the same; a transport error with exhausted
budget fails the poller.  And the boundary scenario: with
`max_retries = 3`, three consecutive 503 responses followed by a 200
carrying a terminal record make the poller return that terminal
record. -/
theorem C9_transient_retry_discipline (responses : Nat → HttpResult) (task_id : String)
    (interval timeout max_retries fuel i elapsed retries : Nat) (log : List String) :
    (∀ code body, elapsed < timeout → responses i = HttpResult.success code body →
      400 ≤ code → code < 500 →
      poll_agent_statusAux responses task_id interval timeout max_retries
        (fuel + 1) i elapsed retries log =
        (none, log ++ ["Error checking status: Status code " ++ natStr code])) ∧
    (∀ code body, elapsed < timeout → responses i = HttpResult.success code body →
      500 ≤ code → code < 600 → retries < max_retries →
      poll_agent_statusAux responses task_id interval timeout max_retries
        (fuel + 1) i elapsed retries log =
        poll_agent_statusAux responses task_id interval timeout max_retries
          fuel (i + 1) (elapsed + interval) (retries + 1)
          (log ++ ["Error checking status: Status code " ++ natStr code] ++
            ["Retrying in " ++ natStr interval ++ " seconds... (retry " ++
              natStr (retries + 1) ++ "/" ++ natStr max_retries ++ ")"])) ∧
    (∀ m, elapsed < timeout → responses i = HttpResult.netErr m →
      retries < max_retries →
      poll_agent_statusAux responses task_id interval timeout max_retries
        (fuel + 1) i elapsed retries log =
        poll_agent_statusAux responses task_id interval timeout max_retries
          fuel (i + 1) (elapsed + interval) (retries + 1)
          (log ++ ["Network error while checking status: " ++ m] ++
            ["Retrying in " ++ natStr interval ++ " seconds... (retry " ++
              natStr (retries + 1) ++ "/" ++ natStr max_retries ++ ")"])) ∧
    (∀ m, elapsed < timeout → responses i = HttpResult.netErr m →
      ¬retries < max_retries →
      poll_agent_statusAux responses task_id interval timeout max_retries
        (fuel + 1) i elapsed retries log =
        (none, log ++ ["Network error while checking status: " ++ m] ++
          ["Maximum retries (" ++ natStr max_retries ++ ") reached. Giving up."])) ∧
    (poll_agent_status sc503 "task_1" 2 300 3).1 = some pollTermRecord := by
  refine ⟨?_, ?_, ?_, ?_, by decide⟩
  · intro code body he hresp h4 h5
    exact pollAux_4xx responses task_id interval timeout max_retries fuel i elapsed
      retries log code body he hresp (by omega) (by omega)
  · intro code body he hresp h5 h6 hr
    exact pollAux_5xx_retry responses task_id interval timeout max_retries fuel i elapsed
      retries log code body he hresp (by omega) h5 h6 hr
  · intro m he hresp hr
    exact pollAux_net_retry responses task_id interval timeout max_retries fuel i elapsed
      retries log m he hresp hr
  · intro m he hresp hr
    exact pollAux_net_giveup responses task_id interval timeout max_retries fuel i elapsed
      retries log m he hresp hr

/-- C9 witness: a 404 at the first poll fails the poller immediately. -/
theorem C9_witness :
    poll_agent_statusAux (fun _ => HttpResult.success 404 none) "t" 2 300 3
      1 0 0 0 [] = (none, ["Error checking status: Status code " ++ natStr 404]) := by
  have h := (C9_transient_retry_discipline (fun _ => HttpResult.success 404 none)
    "t" 2 300 3 0 0 0 0 []).1 404 none (by decide) rfl (by decide) (by decide)
  simpa using h

/-- C10 counterexample: the poller's timeout outcome is NOT distinct from
the outcome of exhausting the transient-retry budget — both code paths
`return None` (src/api_client.py:148, 151), so the two runs produce the
same value. -/
theorem C10_counterexample :
    (poll_agent_status scStuck "t" 1 3 3).1 =
      (poll_agent_status scNetErr "t" 1 300 3).1 := by decide

/-- C10 amended: when the wait duration elapses without a terminal
status, the poller returns the failure value `none` after logging the
timeout message; this is distinct from a job-level failure, for which
the poller returns the terminal record itself (`some …`).  Exhausting
the transient-retry budget, however, returns the same failure value
`none`; the two poller-failure outcomes are distinguished only by the
logged message. -/
theorem C10_timeout_outcome (responses : Nat → HttpResult) (task_id : String)
    (interval timeout max_retries : Nat) (hint : 0 < interval)
    (hresp : ∀ j, nonstopResponse (responses j)) :
    (∃ log', poll_agent_status responses task_id interval timeout max_retries =
       (none, log' ++ ["Timeout reached after " ++ natStr timeout ++ " seconds"])) ∧
    (poll_agent_status scJobFailed "t" 2 300 3 = (some boomRecord, []) ∧
      some boomRecord ≠ (none : Option JDict)) ∧
    ((poll_agent_status scNetErr "t" 1 300 3).1 = none ∧
      (poll_agent_status scNetErr "t" 1 300 3).2.getLast? =
        some "Maximum retries (3) reached. Giving up." ∧
      (poll_agent_status scStuck "t" 1 3 3).2.getLast? =
        some "Timeout reached after 3 seconds") := by
  refine ⟨?_, by decide, by decide⟩
  exact pollAux_timeout_reached responses task_id interval timeout max_retries hint
    hresp (timeout + 1) 0 0 0 [] (by omega)

/-- C10 witness: the timeout outcome at a concrete never-terminal trace. -/
theorem C10_witness :
    ∃ log', poll_agent_status scStuck "t" 1 3 3 =
      (none, log' ++ ["Timeout reached after " ++ natStr 3 ++ " seconds"]) :=
  (C10_timeout_outcome scStuck "t" 1 3 3 (by decide)
    (fun _ => ⟨some runningRecord, rfl, fun d hd => by cases hd; decide⟩)).1

/-- C2 witness: the `"boom"` failure is captured into a terminal record. -/
theorem C2_witness :
    ∃ r, alGet (run_agent_background "task_1" (.ok (.error "boom"))
        (start_agent_run []).1) "task_1" = some r ∧
      alGet r "errors" = some (JVal.str ("Error: " ++ "boom")) ∧
      alGet r "status" = some (JVal.str "error") :=
  (C2_background_always_terminal (start_agent_run []).1 "task_1"
    (.ok (.error "boom")) (.error "x")).2.2.1 "boom" rfl
